import Mathlib

/-!
Verification of the authentication / authorization core of the cms-platform
repository.  The TypeScript source is shallowly embedded: each `def` below
translates one source function (file and symbol named in its doc comment);
JavaScript strings are Lean `String`s, JS numbers holding integral values are
`Int`/`Nat`, `Date.now()` is an explicit `now : Int` parameter (milliseconds),
the Prisma database and the in-memory cache are explicit state values threaded
through the handlers, and cryptographic primitives (bcrypt, jsonwebtoken) are
function parameters, since their outputs are opaque to the logic under test.
-/

/-! ### JavaScript string primitives (ASCII semantics, as used by the source) -/

/-- JS `String.prototype.startsWith`. -/
def jsStartsWith (s pre : String) : Bool :=
  pre.data.isPrefixOf s.data

/-- JS `String.prototype.endsWith`. -/
def jsEndsWith (s suf : String) : Bool :=
  suf.data.isSuffixOf s.data

/-- JS `String.prototype.substring(n)` (drop the first `n` characters). -/
def jsDrop (s : String) (n : Nat) : String :=
  ⟨s.data.drop n⟩

/-- JS `String.prototype.slice(0, -n)` (drop the last `n` characters). -/
def jsDropRight (s : String) (n : Nat) : String :=
  ⟨s.data.take (s.data.length - n)⟩

/-- JS whitespace class (the characters relevant to this code base). -/
def jsIsWs (c : Char) : Bool :=
  c = ' ' || c = '\t' || c = '\n' || c = '\r'

/-- JS `String.prototype.trim`. -/
def jsTrim (s : String) : String :=
  ⟨((s.data.dropWhile jsIsWs).reverse.dropWhile jsIsWs).reverse⟩

/-- ASCII upper-case letter test, JS regex `[A-Z]`. -/
def isUpperAZ (c : Char) : Bool := 'A' ≤ c && c ≤ 'Z'

/-- ASCII lower-case letter test, JS regex `[a-z]`. -/
def isLowerAZ (c : Char) : Bool := 'a' ≤ c && c ≤ 'z'

/-- ASCII digit test, JS regex `[0-9]`. -/
def isDigit09 (c : Char) : Bool := '0' ≤ c && c ≤ '9'

/-- JS `String.prototype.toLowerCase` on one ASCII character. -/
def jsToLowerChar (c : Char) : Char :=
  if isUpperAZ c then Char.ofNat (c.toNat + 32) else c

/-- JS `String.prototype.toUpperCase` on one ASCII character. -/
def jsToUpperChar (c : Char) : Char :=
  if isLowerAZ c then Char.ofNat (c.toNat - 32) else c

/-- JS `String.prototype.toLowerCase` (ASCII range). -/
def jsToLower (s : String) : String := ⟨s.data.map jsToLowerChar⟩

/-- JS `String.prototype.toUpperCase` (ASCII range). -/
def jsToUpper (s : String) : String := ⟨s.data.map jsToUpperChar⟩

/-! ### Decimal numerals: JS `Number.prototype.toString` and `parseInt(_, 10)` -/

/-- The decimal digit character for `d < 10`. -/
def digitChar : Nat → Char
  | 0 => '0' | 1 => '1' | 2 => '2' | 3 => '3' | 4 => '4'
  | 5 => '5' | 6 => '6' | 7 => '7' | 8 => '8' | _ => '9'

/-- Numeric value of a digit character. -/
def digitVal (c : Char) : Nat := c.toNat - 48

/-- Decimal digits of `n`, most significant first; `fuel` bounds the recursion
and any `fuel > n` is enough. -/
def natToDigits : Nat → Nat → List Char
  | 0, _ => []
  | fuel + 1, n =>
    if n < 10 then [digitChar n]
    else natToDigits fuel (n / 10) ++ [digitChar (n % 10)]

/-- JS `(n).toString()` for a non-negative integral number. -/
def natToString (n : Nat) : String := ⟨natToDigits (n + 1) n⟩

/-- JS `(i).toString()` for an integral number. -/
def intToStringJS (i : Int) : String :=
  if i < 0 then "-" ++ natToString i.natAbs else natToString i.toNat

/-- Value of a digit list, most significant first. -/
def parseDigitsVal (cs : List Char) : Nat :=
  cs.foldl (fun a c => a * 10 + digitVal c) 0

/-- JS `parseInt(s, 10)` on the strings this code base feeds it (an optional
minus sign followed by decimal digits; a string with no leading digits, which
JS maps to `NaN`, is mapped to `0` because every caller guards with
`parseInt(x || '0')` on canonical numerals). -/
def parseIntJS (s : String) : Int :=
  if s.data.head? = some '-' then
    -(Int.ofNat (parseDigitsVal (s.data.tail.takeWhile isDigit09)))
  else Int.ofNat (parseDigitsVal (s.data.takeWhile isDigit09))

theorem digitVal_digitChar (d : Nat) (h : d < 10) : digitVal (digitChar d) = d := by
  interval_cases d <;> rfl

theorem isDigit09_digitChar (d : Nat) : isDigit09 (digitChar d) = true := by
  match d with
  | 0 | 1 | 2 | 3 | 4 | 5 | 6 | 7 | 8 => rfl
  | n + 9 => rfl

theorem natToDigits_ne_nil (fuel n : Nat) (h : n < fuel) :
    natToDigits fuel n ≠ [] := by
  match fuel with
  | 0 => omega
  | fuel + 1 =>
    simp only [natToDigits]
    split
    · simp
    · simp

theorem natToDigits_all_digits (fuel n : Nat) :
    ∀ c ∈ natToDigits fuel n, isDigit09 c = true := by
  induction fuel generalizing n with
  | zero => simp [natToDigits]
  | succ fuel ih =>
    intro c hc
    simp only [natToDigits] at hc
    split at hc
    · simp at hc
      subst hc
      exact isDigit09_digitChar n
    · rcases List.mem_append.mp hc with h | h
      · exact ih (n / 10) c h
      · simp at h
        subst h
        exact isDigit09_digitChar (n % 10)

theorem parseDigitsVal_append (cs ds : List Char) :
    parseDigitsVal (cs ++ ds) =
      ds.foldl (fun a c => a * 10 + digitVal c) (parseDigitsVal cs) := by
  simp [parseDigitsVal, List.foldl_append]

theorem parseDigitsVal_natToDigits (fuel n : Nat) (h : n < fuel) :
    parseDigitsVal (natToDigits fuel n) = n := by
  induction fuel generalizing n with
  | zero => omega
  | succ fuel ih =>
    simp only [natToDigits]
    split
    · next hlt =>
      simp [parseDigitsVal, digitVal_digitChar n hlt]
    · next hge =>
      have h10 : 10 ≤ n := by omega
      have hdiv : n / 10 < fuel := by
        have := Nat.div_lt_self (by omega : 0 < n) (by omega : 1 < 10)
        omega
      rw [parseDigitsVal_append, ih (n / 10) hdiv]
      simp [digitVal_digitChar (n % 10) (Nat.mod_lt n (by omega))]
      omega

theorem takeWhile_of_all {p : Char → Bool} (cs : List Char)
    (h : ∀ c ∈ cs, p c = true) : cs.takeWhile p = cs := by
  induction cs with
  | nil => rfl
  | cons c cs ih =>
    simp only [List.takeWhile_cons, h c (List.mem_cons_self c cs)]
    simp [ih fun x hx => h x (List.mem_cons_of_mem c hx)]

/-- Round trip: parsing the printed decimal form of `n` recovers `n`. -/
theorem parseIntJS_natToString (n : Nat) : parseIntJS (natToString n) = Int.ofNat n := by
  have hall := natToDigits_all_digits (n + 1) n
  have hne := natToDigits_ne_nil (n + 1) n (Nat.lt_succ_self n)
  have hval := parseDigitsVal_natToDigits (n + 1) n (Nat.lt_succ_self n)
  have htake := takeWhile_of_all (natToDigits (n + 1) n) hall
  unfold parseIntJS natToString
  simp only
  have hhead : (natToDigits (n + 1) n).head? ≠ some '-' := by
    match hd : natToDigits (n + 1) n with
    | [] => exact absurd hd hne
    | c :: cs =>
      have hcdig : isDigit09 c = true := hall c (by rw [hd]; exact List.mem_cons_self c cs)
      simp only [List.head?]
      intro hc
      simp at hc
      rw [hc] at hcdig
      simp [isDigit09] at hcdig
  rw [if_neg hhead, htake, hval]

theorem parseIntJS_intToStringJS (i : Int) (h : 0 ≤ i) :
    parseIntJS (intToStringJS i) = i := by
  unfold intToStringJS
  rw [if_neg (by omega)]
  rw [parseIntJS_natToString]
  exact_mod_cast Int.toNat_of_nonneg h

/-! ### Validators — `packages/shared/src/utils.ts` and `lib/validation.ts` -/

/-- `packages/shared/src/utils.ts` `ValidationResult`. -/
structure ValidationResult where
  valid : Bool
  errors : List String
deriving DecidableEq, Repr

/-- The character class `[^\s@]` of the email regex in
`packages/shared/src/utils.ts` `validateEmail`. -/
def emailAtomChar (c : Char) : Bool := !jsIsWs c && !(c = '@')

/-- The test `/^[^\s@]+@[^\s@]+\.[^\s@]+$/.test email` of
`packages/shared/src/utils.ts` `validateEmail`: a nonempty atom block, one
`@`, then a nonempty atom block containing a `.` with atom characters on both
sides (`.` itself belongs to the atom class, so extra dots may sit inside the
blocks). -/
def emailRegexTest (s : String) : Bool :=
  let beforeAt := s.data.takeWhile fun c => !(c = '@')
  match s.data.dropWhile fun c => !(c = '@') with
  | '@' :: rest =>
    !beforeAt.isEmpty && beforeAt.all emailAtomChar && rest.all emailAtomChar
      && ((rest.drop 1).dropLast.contains '.')
  | _ => false

/-- `packages/shared/src/utils.ts` `validateEmail`. -/
def validateEmail (email : String) : ValidationResult :=
  let errors : List String :=
    if email = "" then ["Email is required"]
    else if emailRegexTest email = false then ["Invalid email format"]
    else []
  ⟨errors.isEmpty, errors⟩

/-- `packages/shared/src/utils.ts` `validatePassword`. -/
def validatePassword (password : String) : ValidationResult :=
  let errors : List String :=
    if password = "" then ["Password is required"]
    else
      (if password.length < 8 then ["Password must be at least 8 characters long"] else [])
        ++ (if password.data.any isUpperAZ = false then
              ["Password must contain at least one uppercase letter"] else [])
        ++ (if password.data.any isLowerAZ = false then
              ["Password must contain at least one lowercase letter"] else [])
        ++ (if password.data.any isDigit09 = false then
              ["Password must contain at least one number"] else [])
  ⟨errors.isEmpty, errors⟩

/-- `apps/api/lib/validation.ts` `validateRegistration` (the name field is the
JS check `!data.name || data.name.trim().length < 2`). -/
def validateRegistration (email password name : String) : ValidationResult :=
  let errors : List String :=
    (validateEmail email).errors ++ (validatePassword password).errors
      ++ (if name = "" || (jsTrim name).length < 2 then
            ["Name must be at least 2 characters long"] else [])
  ⟨errors.isEmpty, errors⟩

/-! ### Permissions and tokens — `apps/api/lib/auth.ts`, `packages/shared/src/utils.ts` -/

/-- `apps/api/lib/auth.ts` `TokenPayload`. -/
structure TokenPayload where
  userId : String
  email : String
  role : String
deriving DecidableEq, Repr

/-- `apps/api/lib/auth.ts` `getPermissions`: the static role table indexed by
`role.toLowerCase()`, with `[]` for a key outside the table. -/
def getPermissions (role : String) : List String :=
  match jsToLower role with
  | "admin" => ["*"]
  | "editor" => ["content:*", "media:*", "comments:moderate"]
  | "author" => ["content:create", "content:edit:own", "media:upload"]
  | "viewer" => ["content:read", "comments:create"]
  | _ => []

/-- `packages/shared/src/utils.ts` `hasPermission`: `*` grants everything; an
entry `resource:*` is compared by `permission.startsWith(p.slice(0, -2))`,
a plain string prefix test; other entries by equality. -/
def hasPermission (userRole permission : String) : Bool :=
  let rolePermissions : List String :=
    match userRole with
    | "admin" => ["*"]
    | "editor" => ["content:*", "media:*", "comments:moderate"]
    | "author" => ["content:create", "content:edit:own", "media:upload"]
    | "viewer" => ["content:read", "comments:create"]
    | _ => []
  if rolePermissions.contains "*" then true
  else rolePermissions.any fun p =>
    if jsEndsWith p ":*" then jsStartsWith permission (jsDropRight p 2)
    else p = permission

/-- `apps/api/lib/auth.ts` `extractToken`: `null` / empty and non-`Bearer `
headers give `null`; otherwise the header minus its first 7 characters. -/
def extractToken (authHeader : Option String) : Option String :=
  match authHeader with
  | none => none
  | some h =>
    if h = "" || !jsStartsWith h "Bearer " then none
    else some (jsDrop h 7)

/-! ### Persistence model — the Prisma `User` and `RefreshToken` tables -/

/-- A row of the Prisma `User` table as used by the auth routes. -/
structure DbUser where
  id : String
  email : String
  password : String
  name : String
  role : String
deriving DecidableEq, Repr

/-- A row of the Prisma `RefreshToken` table. -/
structure DbRefreshToken where
  id : Nat
  token : String
  userId : String
  expiresAt : Int
deriving DecidableEq, Repr

/-- The database state visible to the auth routes. -/
structure DB where
  users : List DbUser
  refreshTokens : List DbRefreshToken
deriving DecidableEq, Repr

/-- `prisma.user.findUnique({ where: { email } })`. -/
def DB.findUserByEmail (db : DB) (email : String) : Option DbUser :=
  db.users.find? fun u => u.email = email

/-- `prisma.refreshToken.findUnique({ where: { token } })`. -/
def DB.findRefreshToken (db : DB) (token : String) : Option DbRefreshToken :=
  db.refreshTokens.find? fun r => r.token = token

/-- `prisma.user.findUnique({ where: { id } })` (the `include: { user: true }`
join of the refresh handler). -/
def DB.findUserById (db : DB) (id : String) : Option DbUser :=
  db.users.find? fun u => u.id = id

/-- The `token` column carries a `@unique` constraint (`findUnique` addresses
rows by it), so a well-formed database has pairwise distinct token strings. -/
def DB.tokensUnique (db : DB) : Prop :=
  (db.refreshTokens.map fun r => r.token).Nodup

/-! ### HTTP response shapes — `@repo/shared` `ApiResponse` -/

/-- The error body shape shared by every handler:
`{error, message, statusCode, details?}` (`details` is `[]` when absent). -/
structure ErrorBody where
  error : String
  message : String
  statusCode : Nat
  details : List String
deriving DecidableEq, Repr

/-- `@repo/shared` `AuthPayload.user`. -/
structure AuthUser where
  id : String
  email : String
  role : String
  permissions : List String
deriving DecidableEq, Repr

/-- `@repo/shared` `AuthPayload`. -/
structure AuthPayload where
  user : AuthUser
  accessToken : String
  refreshToken : String
deriving DecidableEq, Repr

/-- A handler result: either a success JSON with its HTTP status, or an error
JSON with its HTTP status. -/
inductive ApiResult where
  | success (status : Nat) (data : AuthPayload)
  | failure (status : Nat) (body : ErrorBody)
deriving DecidableEq, Repr

/-! ### Route handlers

Each handler takes the cryptographic collaborators as parameters:
`hash` for `hashPassword`, `vp` for `verifyPassword`, `genA`/`genR` for
`generateAccessToken`/`generateRefreshToken` and `verifyR` for
`verifyRefreshToken` (`none` models a `jwt.verify` throw).  `newUserId` and
`newTokenId` stand for the ids Prisma generates for inserted rows, and `now`
is `Date.now()` in milliseconds. -/

/-- `apps/api/app/api/auth/register/route.ts` `POST`. -/
def registerPOST (hash : String → String) (genA genR : TokenPayload → String)
    (newUserId : String) (newTokenId : Nat) (now : Int) (db : DB)
    (email password name : String) (roleOpt : Option String) : ApiResult × DB :=
  let role := roleOpt.getD "viewer"
  let validation := validateRegistration email password name
  if validation.valid = false then
    (.failure 400 ⟨"Validation Error", "Invalid input data", 400, validation.errors⟩, db)
  else
    match db.findUserByEmail email with
    | some _ =>
      (.failure 409 ⟨"Conflict", "User with this email already exists", 409, []⟩, db)
    | none =>
      let hashedPassword := hash password
      let user : DbUser :=
        { id := newUserId, email := email, password := hashedPassword
          name := name, role := jsToUpper role }
      let db1 : DB := { db with users := db.users ++ [user] }
      let tokenPayload : TokenPayload :=
        { userId := user.id, email := user.email, role := jsToLower user.role }
      let accessToken := genA tokenPayload
      let refreshToken := genR tokenPayload
      let db2 : DB :=
        { db1 with refreshTokens := db1.refreshTokens
            ++ [{ id := newTokenId, token := refreshToken, userId := user.id
                  expiresAt := now + 7 * 24 * 60 * 60 * 1000 }] }
      (.success 201
        { user := { id := user.id, email := user.email, role := jsToLower user.role
                    permissions := getPermissions (jsToLower user.role) }
          accessToken := accessToken, refreshToken := refreshToken }, db2)

/-- `apps/api/app/api/auth/login/route.ts` `POST` (login handler). -/
def loginPOST (vp : String → String → Bool) (genA genR : TokenPayload → String)
    (newTokenId : Nat) (now : Int) (db : DB)
    (email password : String) : ApiResult × DB :=
  if email = "" || password = "" then
    (.failure 400 ⟨"Bad Request", "Email and password are required", 400, []⟩, db)
  else
    match db.findUserByEmail email with
    | none =>
      (.failure 401 ⟨"Unauthorized", "Invalid credentials", 401, []⟩, db)
    | some user =>
      if vp password user.password = false then
        (.failure 401 ⟨"Unauthorized", "Invalid credentials", 401, []⟩, db)
      else
        let tokenPayload : TokenPayload :=
          { userId := user.id, email := user.email, role := jsToLower user.role }
        let accessToken := genA tokenPayload
        let refreshToken := genR tokenPayload
        let db1 : DB :=
          { db with refreshTokens := db.refreshTokens
              ++ [{ id := newTokenId, token := refreshToken, userId := user.id
                    expiresAt := now + 7 * 24 * 60 * 60 * 1000 }] }
        (.success 200
          { user := { id := user.id, email := user.email, role := jsToLower user.role
                      permissions := getPermissions (jsToLower user.role) }
            accessToken := accessToken, refreshToken := refreshToken }, db1)

/-- `apps/api/app/api/auth/login/route.ts` `POST` (refresh handler): verify
the JWT, look the token up, reject missing or expired rows with the one
opaque 401 body, then delete the old row (by its id) and insert the
replacement.  A missing joined user would make `storedToken.user.id` throw,
landing in the outer catch as a 500. -/
def refreshPOST (verifyR : String → Option TokenPayload)
    (genA genR : TokenPayload → String) (newTokenId : Nat) (now : Int)
    (db : DB) (refreshToken : String) : ApiResult × DB :=
  if refreshToken = "" then
    (.failure 400 ⟨"Bad Request", "Refresh token is required", 400, []⟩, db)
  else
    match verifyR refreshToken with
    | none =>
      (.failure 401 ⟨"Unauthorized", "Invalid or expired refresh token", 401, []⟩, db)
    | some _ =>
      match db.findRefreshToken refreshToken with
      | none =>
        (.failure 401 ⟨"Unauthorized", "Invalid or expired refresh token", 401, []⟩, db)
      | some storedToken =>
        if storedToken.expiresAt < now then
          (.failure 401 ⟨"Unauthorized", "Invalid or expired refresh token", 401, []⟩, db)
        else
          match db.findUserById storedToken.userId with
          | none =>
            (.failure 500 ⟨"Internal Server Error", "Failed to refresh token", 500, []⟩, db)
          | some user =>
            let tokenPayload : TokenPayload :=
              { userId := user.id, email := user.email, role := jsToLower user.role }
            let newAccessToken := genA tokenPayload
            let newRefreshToken := genR tokenPayload
            let db1 : DB :=
              { db with refreshTokens :=
                  db.refreshTokens.filter fun r => !(r.id = storedToken.id) }
            let db2 : DB :=
              { db1 with refreshTokens := db1.refreshTokens
                  ++ [{ id := newTokenId, token := newRefreshToken, userId := user.id
                        expiresAt := now + 7 * 24 * 60 * 60 * 1000 }] }
            (.success 200
              { user := { id := user.id, email := user.email, role := jsToLower user.role
                          permissions := getPermissions (jsToLower user.role) }
                accessToken := newAccessToken, refreshToken := newRefreshToken }, db2)

/-! ### `apps/api/lib/redis.ts` — `SimpleCache` and `RateLimiter` -/

/-- One `SimpleCache` entry: `{ value, expiry }` with `expiry` an absolute
millisecond timestamp. -/
structure CacheEntry where
  value : String
  expiry : Int
deriving DecidableEq, Repr

/-- The `Map<string, {value, expiry}>` backing `SimpleCache`.  The head-first
association list realises `Map.set` overwrite semantics. -/
def Cache := List (String × CacheEntry)
deriving DecidableEq, Repr

/-- Raw `Map.get`. -/
def cacheFind (c : Cache) (key : String) : Option CacheEntry :=
  (List.find? (fun e => e.1 = key) c).map fun e => e.2

/-- Raw `Map.set` (overwrite). -/
def cacheWrite (c : Cache) (key : String) (e : CacheEntry) : Cache :=
  (key, e) :: List.filter (fun x => !(x.1 = key)) c

/-- Raw `Map.delete`. -/
def cacheErase (c : Cache) (key : String) : Cache :=
  List.filter (fun x => !(x.1 = key)) c

/-- `SimpleCache.get`: a hit past its expiry is deleted and reported absent
(`Date.now() > item.expiry` is a strict comparison). -/
def SimpleCache.get (now : Int) (c : Cache) (key : String) : Option String × Cache :=
  match cacheFind c key with
  | none => (none, c)
  | some item =>
    if now > item.expiry then (none, cacheErase c key)
    else (some item.value, c)

/-- `SimpleCache.set`: stores the value with expiry `now + expirySeconds*1000`,
defaulting to one hour when no expiry argument is passed. -/
def SimpleCache.set (now : Int) (c : Cache) (key value : String)
    (expirySeconds : Option Int) : Cache :=
  let expiry := match expirySeconds with
    | some s => now + s * 1000
    | none => now + 3600 * 1000
  cacheWrite c key ⟨value, expiry⟩

/-- `SimpleCache.incr`: read (with expiry pruning), parse, add one, and store
the result back **through `set` with no expiry argument**, so the entry's
expiry is rewritten to `now + 3600s` on every increment. -/
def SimpleCache.incr (now : Int) (c : Cache) (key : String) : Int × Cache :=
  let got := SimpleCache.get now c key
  let newValue := parseIntJS (got.1.getD "0") + 1
  (newValue, SimpleCache.set now got.2 key (intToStringJS newValue) none)

/-- `SimpleCache.expire`: rewrite the expiry of an existing entry. -/
def SimpleCache.expire (now : Int) (c : Cache) (key : String) (seconds : Int) : Cache :=
  match cacheFind c key with
  | none => c
  | some item => cacheWrite c key ⟨item.value, now + seconds * 1000⟩

/-- The `type` union of `RateLimiter.checkLimit`. -/
inductive BucketType where
  | anonymous
  | authenticated
  | api_key
deriving DecidableEq, Repr

/-- The key fragment for a bucket type. -/
def BucketType.name : BucketType → String
  | .anonymous => "anonymous"
  | .authenticated => "authenticated"
  | .api_key => "api_key"

/-- `RateLimiter.limits`: hourly ceilings per bucket type. -/
def RateLimiter.limits : BucketType → Int
  | .anonymous => 100
  | .authenticated => 1000
  | .api_key => 10000

/-- The `{allowed, remaining, resetAt}` result of `checkLimit`. -/
structure RateLimitResult where
  allowed : Bool
  remaining : Int
  resetAt : Int
deriving DecidableEq, Repr

/-- `RateLimiter.checkLimit`: increment the counter at
`rate_limit:<type>:<identifier>`, set the window expiry when the returned
count is 1, and admit the request while `count <= limit`. -/
def RateLimiter.checkLimit (now : Int) (c : Cache) (identifier : String)
    (type : BucketType) : RateLimitResult × Cache :=
  let key := "rate_limit:" ++ type.name ++ ":" ++ identifier
  let limit := RateLimiter.limits type
  let window : Int := 3600
  let r1 := SimpleCache.incr now c key
  let current := r1.1
  let c2 := if current = 1 then SimpleCache.expire now r1.2 key window else r1.2
  ({ allowed := current ≤ limit
     remaining := max 0 (limit - current)
     resetAt := now + window * 1000 }, c2)

/-- `k` sequential `checkLimit` calls at one instant for one identifier. -/
def iterCheckLimit (now : Int) (identifier : String) (type : BucketType) :
    Nat → Cache → Cache
  | 0, c => c
  | k + 1, c => iterCheckLimit now identifier type k
      (RateLimiter.checkLimit now c identifier type).2

/-! ### `middleware.ts` — rate-limit gate and bearer-token authentication -/

/-- JS truthiness of `string | null` (absent or empty is falsy). -/
def isTruthyStr : Option String → Bool
  | none => false
  | some s => !(s = "")

/-- The public-route skip list at the top of `middleware`. -/
def isPublicPath (path : String) : Bool :=
  jsStartsWith path "/_next" || jsStartsWith path "/static"
    || path = "/api/auth/login" || path = "/api/auth/register"
    || path = "/api/auth/refresh"

/-- What the middleware resolves a request to. -/
inductive MwDecision where
  /-- `NextResponse.next()` with the request untouched. -/
  | next
  /-- `NextResponse.next()` with `x-user-id`, `x-user-email`, `x-user-role`
  set from the verified payload. -/
  | nextWithHeaders (userId email role : String)
  /-- The 429 rate-limited JSON, carrying `{remaining, resetAt}`. -/
  | tooManyRequests (remaining : Int) (resetAt : Int)
  /-- The 401 `No authentication token provided` JSON. -/
  | unauthorizedNoToken
  /-- The 401 `Invalid or expired token` JSON. -/
  | unauthorizedBadToken
deriving DecidableEq, Repr

/-- HTTP status of a middleware response (`none` when the request proceeds to
the downstream handler). -/
def MwDecision.status : MwDecision → Option Nat
  | .next => none
  | .nextWithHeaders _ _ _ => none
  | .tooManyRequests _ _ => some 429
  | .unauthorizedNoToken => some 401
  | .unauthorizedBadToken => some 401

/-- Result of one middleware run: the decision, the updated cache and a ghost
flag recording whether `rateLimiter.checkLimit` was invoked on this request. -/
structure MwResult where
  decision : MwDecision
  rateLimiterCalled : Bool
  cache : Cache
deriving DecidableEq, Repr

/-- `middleware.ts` `middleware`: skip public paths outright; otherwise run the
rate limiter (bucket `authenticated` when an Authorization header is present),
answer 429 when not admitted; then, for `/api` paths, extract and verify the
bearer token (`verifyA` models `verifyAccessToken`, `none` for a throw) and
either forward the identity headers or answer 401. -/
def middleware (verifyA : String → Option TokenPayload) (now : Int) (c : Cache)
    (path : String) (authHeader : Option String) (ip : Option String) : MwResult :=
  if isPublicPath path then
    { decision := .next, rateLimiterCalled := false, cache := c }
  else
    let identifier := if isTruthyStr ip then ip.getD "anonymous" else "anonymous"
    let rateLimitType : BucketType :=
      if isTruthyStr authHeader then .authenticated else .anonymous
    let rl := RateLimiter.checkLimit now c identifier rateLimitType
    if rl.1.allowed = false then
      { decision := .tooManyRequests rl.1.remaining rl.1.resetAt
        rateLimiterCalled := true, cache := rl.2 }
    else if jsStartsWith path "/api" then
      match extractToken authHeader with
      | none =>
        { decision := .unauthorizedNoToken, rateLimiterCalled := true, cache := rl.2 }
      | some token =>
        match verifyA token with
        | none =>
          { decision := .unauthorizedBadToken, rateLimiterCalled := true, cache := rl.2 }
        | some payload =>
          { decision := .nextWithHeaders payload.userId payload.email payload.role
            rateLimiterCalled := true, cache := rl.2 }
    else
      { decision := .next, rateLimiterCalled := true, cache := rl.2 }

/-! ### Interleaving model of concurrent refresh calls

The refresh handler performs three awaited database operations on the shared
store: the `findUnique` lookup, the `delete` of the found row (which throws
`P2025` into the outer catch — a 500 — when the row is already gone), and the
`create` of the replacement.  The JS event loop can interleave any number of
handler instances at these await points; each database operation itself is
atomic.  `RotPhase` is one instance's program counter, `rotStepAt` lets the
scheduler run the next database operation of a chosen instance, and the shared
`Bool` says whether the presented token's row is still stored. -/

/-- Terminal outcome of one refresh call in the race model. -/
inductive RotOutcome where
  /-- 200: this call performed the rotation (delete plus insert). -/
  | ok
  /-- 401 `Invalid or expired refresh token`: the lookup found no row. -/
  | err401
  /-- 500 `Failed to refresh token`: the delete hit an already-deleted row. -/
  | err500
deriving DecidableEq, Repr

/-- Program counter of one in-flight refresh call. -/
inductive RotPhase where
  /-- Before its `findUnique` lookup. -/
  | start
  /-- Lookup succeeded; before its `delete`. -/
  | ready
  /-- Delete succeeded; before its `create`. -/
  | deleted
  /-- Response sent. -/
  | done (o : RotOutcome)
deriving DecidableEq, Repr

/-- One awaited database operation of one refresh call, against the shared
flag `old` (is the old row still present?). -/
def rotStep (old : Bool) : RotPhase → Bool × RotPhase
  | .start => if old then (old, .ready) else (old, .done .err401)
  | .ready => if old then (false, .deleted) else (old, .done .err500)
  | .deleted => (old, .done .ok)
  | .done o => (old, .done o)

/-- Run the next operation of the `i`-th call. -/
def rotStepAt : Bool → List RotPhase → Nat → Bool × List RotPhase
  | old, [], _ => (old, [])
  | old, p :: ps, 0 =>
    let r := rotStep old p
    (r.1, r.2 :: ps)
  | old, p :: ps, i + 1 =>
    let r := rotStepAt old ps i
    (r.1, p :: r.2)

/-- Run a whole schedule (a list of call indices). -/
def rotRun (s : Bool × List RotPhase) (sched : List Nat) : Bool × List RotPhase :=
  sched.foldl (fun st i => rotStepAt st.1 st.2 i) s

/-- `n` refresh calls about to race for one valid stored token. -/
def rotInit (n : Nat) : Bool × List RotPhase :=
  (true, List.replicate n .start)

/-- Weight 1 marks a call that owns the rotation (deleted the row, or already
finished with 200). -/
def rotWeight : RotPhase → Nat
  | .deleted => 1
  | .done .ok => 1
  | _ => 0

/-- Total weight of a configuration. -/
def rotTotal (ps : List RotPhase) : Nat := (ps.map rotWeight).sum

/-- Has this call's response been sent? -/
def RotPhase.isDone : RotPhase → Bool
  | .done _ => true
  | _ => false

theorem rotTotal_nil : rotTotal [] = 0 := rfl

theorem rotTotal_cons (p : RotPhase) (ps : List RotPhase) :
    rotTotal (p :: ps) = rotWeight p + rotTotal ps := by
  simp [rotTotal]

theorem rotTotal_zero_of_pending (ps : List RotPhase)
    (h : ∀ p ∈ ps, p = .start ∨ p = .ready) : rotTotal ps = 0 := by
  induction ps with
  | nil => rfl
  | cons p ps ih =>
    rw [rotTotal_cons]
    have hp := h p (List.mem_cons_self p ps)
    have hps := ih fun x hx => h x (List.mem_cons_of_mem p hx)
    rcases hp with hp | hp <;> subst hp <;> simp [rotWeight, hps]

theorem rotStepAt_of_false (ps : List RotPhase) (i : Nat) :
    (rotStepAt false ps i).1 = false ∧
      rotTotal (rotStepAt false ps i).2 = rotTotal ps := by
  induction ps generalizing i with
  | nil => simp [rotStepAt]
  | cons p ps ih =>
    match i with
    | 0 =>
      cases p with
      | start => simp [rotStepAt, rotStep, rotTotal_cons, rotWeight]
      | ready => simp [rotStepAt, rotStep, rotTotal_cons, rotWeight]
      | deleted => simp [rotStepAt, rotStep, rotTotal_cons, rotWeight]
      | done o => simp [rotStepAt, rotStep, rotTotal_cons, rotWeight]
    | i + 1 =>
      have := ih i
      simp only [rotStepAt, rotTotal_cons]
      exact ⟨this.1, by rw [this.2]⟩

theorem rotStepAt_of_true (ps : List RotPhase) (i : Nat)
    (h : ∀ p ∈ ps, p = .start ∨ p = .ready) :
    ((rotStepAt true ps i).1 = true ∧
        ∀ p ∈ (rotStepAt true ps i).2, p = .start ∨ p = .ready)
      ∨ ((rotStepAt true ps i).1 = false ∧ rotTotal (rotStepAt true ps i).2 = 1) := by
  induction ps generalizing i with
  | nil => left; simp [rotStepAt]
  | cons p ps ih =>
    have hp := h p (List.mem_cons_self p ps)
    have hps : ∀ x ∈ ps, x = RotPhase.start ∨ x = RotPhase.ready :=
      fun x hx => h x (List.mem_cons_of_mem p hx)
    match i with
    | 0 =>
      rcases hp with hp | hp <;> subst hp
      · left
        constructor
        · simp [rotStepAt, rotStep]
        · intro q hq
          simp only [rotStepAt, rotStep, if_pos] at hq
          rcases List.mem_cons.mp hq with hq | hq
          · right; exact hq
          · exact hps q hq
      · right
        constructor
        · simp [rotStepAt, rotStep]
        · simp only [rotStepAt, rotStep, if_pos]
          rw [rotTotal_cons, rotTotal_zero_of_pending ps hps]
          rfl
    | i + 1 =>
      rcases ih i hps with ⟨h1, h2⟩ | ⟨h1, h2⟩
      · left
        constructor
        · simpa [rotStepAt] using h1
        · intro q hq
          simp only [rotStepAt] at hq
          rcases List.mem_cons.mp hq with hq | hq
          · rw [hq]; exact h p (List.mem_cons_self p ps)
          · exact h2 q hq
      · right
        constructor
        · simpa [rotStepAt] using h1
        · simp only [rotStepAt, rotTotal_cons]
          rw [h2]
          rcases h p (List.mem_cons_self p ps) with hp | hp <;> subst hp <;> rfl

/-- The race invariant: while the old row is stored nobody has rotated; once
it is gone exactly one call owns the rotation. -/
def RotInv : Bool × List RotPhase → Prop
  | (old, ps) => if old then ∀ p ∈ ps, p = .start ∨ p = .ready else rotTotal ps = 1

theorem rotStepAt_inv (old : Bool) (ps : List RotPhase) (i : Nat)
    (h : RotInv (old, ps)) : RotInv (rotStepAt old ps i) := by
  cases old with
  | true =>
    have h' : ∀ p ∈ ps, p = RotPhase.start ∨ p = RotPhase.ready := by
      simpa [RotInv] using h
    rcases hst : rotStepAt true ps i with ⟨old2, ps2⟩
    rcases rotStepAt_of_true ps i h' with ⟨h1, h2⟩ | ⟨h1, h2⟩ <;>
      rw [hst] at h1 h2 <;> simp only at h1 h2 <;> subst h1
    · simpa [RotInv] using h2
    · simpa [RotInv] using h2
  | false =>
    have h' : rotTotal ps = 1 := by simpa [RotInv] using h
    have haux := rotStepAt_of_false ps i
    rcases hst : rotStepAt false ps i with ⟨old2, ps2⟩
    rw [hst] at haux
    simp only at haux
    rcases haux with ⟨h1, h2⟩
    subst h1
    simp only [RotInv, if_neg (by simp : ¬ (false : Bool) = true)]
    rw [h2, h']

theorem rotRun_inv (s : Bool × List RotPhase) (sched : List Nat)
    (h : RotInv s) : RotInv (rotRun s sched) := by
  induction sched generalizing s with
  | nil => exact h
  | cons i sched ih =>
    have h1 : RotInv (rotStepAt s.1 s.2 i) := rotStepAt_inv s.1 s.2 i (by
      cases s with
      | mk a b => exact h)
    have : rotRun s (i :: sched) = rotRun (rotStepAt s.1 s.2 i) sched := rfl
    rw [this]
    exact ih _ h1

theorem rotStepAt_length (old : Bool) (ps : List RotPhase) (i : Nat) :
    (rotStepAt old ps i).2.length = ps.length := by
  induction ps generalizing i old with
  | nil => simp [rotStepAt]
  | cons p ps ih =>
    match i with
    | 0 => simp [rotStepAt]
    | i + 1 => simp [rotStepAt, ih]

theorem rotRun_length (s : Bool × List RotPhase) (sched : List Nat) :
    (rotRun s sched).2.length = s.2.length := by
  induction sched generalizing s with
  | nil => rfl
  | cons i sched ih =>
    have : rotRun s (i :: sched) = rotRun (rotStepAt s.1 s.2 i) sched := rfl
    rw [this, ih, rotStepAt_length]

theorem rotTotal_eq_countOk (ps : List RotPhase)
    (h : ∀ p ∈ ps, p.isDone = true) :
    rotTotal ps = ps.countP (fun p => p == RotPhase.done .ok) := by
  induction ps with
  | nil => rfl
  | cons p ps ih =>
    rw [rotTotal_cons, List.countP_cons,
      ih fun x hx => h x (List.mem_cons_of_mem p hx)]
    have hp := h p (List.mem_cons_self p ps)
    cases p with
    | start => simp [RotPhase.isDone] at hp
    | ready => simp [RotPhase.isDone] at hp
    | deleted => simp [RotPhase.isDone] at hp
    | done o =>
      cases o <;> (simp [rotWeight]; try omega)

/-- C1 counterexample: under the schedule where both of two concurrent refresh
calls pass the `findUnique` lookup before either deletes, the loser's `delete`
throws into the outer catch and it answers 500 `Failed to refresh token` —
not the 401 invalid-or-expired result the claim asserts for every loser. -/
theorem refresh_race_loser_gets_500_not_401 :
    (rotRun (rotInit 2) [0, 1, 0, 0, 1]).2
        = [RotPhase.done .ok, RotPhase.done .err500]
      ∧ RotOutcome.err500 ≠ RotOutcome.err401 := by
  constructor
  · rfl
  · decide

/-- C1 (amended): for any number of concurrent refresh calls presenting the
same valid stored token and any interleaving of their awaited database
operations, once every call has answered, exactly one performed the rotation
and answered 200; each loser answered either the 401 invalid-or-expired
result (its lookup ran after the winner's delete) or a 500 (its own delete
hit the already-deleted row).  The two winners can never both succeed. -/
theorem refresh_race_exactly_one_success (n : Nat) (sched : List Nat)
    (hn : 0 < n)
    (hdone : ∀ p ∈ (rotRun (rotInit n) sched).2, p.isDone = true) :
    ((rotRun (rotInit n) sched).2.countP fun p => p == RotPhase.done .ok) = 1
      ∧ ∀ p ∈ (rotRun (rotInit n) sched).2,
          p = RotPhase.done .ok ∨ p = RotPhase.done .err401
            ∨ p = RotPhase.done .err500 := by
  have hinv : RotInv (rotRun (rotInit n) sched) := by
    apply rotRun_inv
    simp only [rotInit, RotInv, if_pos]
    intro p hp
    left
    exact List.eq_of_mem_replicate hp
  have hlen : (rotRun (rotInit n) sched).2.length = n := by
    rw [rotRun_length]
    simp [rotInit]
  rcases hfin : rotRun (rotInit n) sched with ⟨old, ps⟩
  rw [hfin] at hinv hdone hlen
  simp only at hdone hlen
  cases old with
  | true =>
    exfalso
    have hpend : ∀ p ∈ ps, p = RotPhase.start ∨ p = RotPhase.ready := by
      simpa [RotInv] using hinv
    have hne : ps ≠ [] := by
      intro hnil
      rw [hnil] at hlen
      simp at hlen
      omega
    obtain ⟨p, hp⟩ := List.exists_mem_of_ne_nil ps hne
    have hd := hdone p hp
    rcases hpend p hp with h | h <;> rw [h] at hd <;> simp [RotPhase.isDone] at hd
  | false =>
    have htot : rotTotal ps = 1 := by simpa [RotInv] using hinv
    refine ⟨?_, ?_⟩
    · rw [← rotTotal_eq_countOk ps hdone]
      exact htot
    · intro p hp
      have hd := hdone p hp
      cases p with
      | start => simp [RotPhase.isDone] at hd
      | ready => simp [RotPhase.isDone] at hd
      | deleted => simp [RotPhase.isDone] at hd
      | done o => cases o
                  · left; rfl
                  · right; left; rfl
                  · right; right; rfl

/-- Witness for C1 (amended) at a concrete complete two-call race. -/
theorem refresh_race_exactly_one_success_witness :
    ((rotRun (rotInit 2) [0, 1, 0, 0, 1]).2.countP
        fun p => p == RotPhase.done .ok) = 1 :=
  (refresh_race_exactly_one_success 2 [0, 1, 0, 0, 1] (by decide) (by decide)).1

/-- C2: a refresh token that was successfully used for rotation (a completed,
sequential refresh call) is refused with the 401 invalid-or-expired body on
any later refresh call presenting the same token, because the rotation
deleted its row — the hypothesis on `verifyR` is not needed for the second
call, whose JWT verification still succeeds exactly as the claim notes.
`hfresh` states that the freshly minted replacement token is a different
string from the presented one. -/
theorem refresh_rotation_single_use
    (verifyR : String → Option TokenPayload) (genA genR : TokenPayload → String)
    (id1 id2 : Nat) (now1 now2 : Int) (db : DB) (tok : String) (a : AuthPayload)
    (huniq : db.tokensUnique)
    (hfresh : ∀ p, genR p ≠ tok)
    (hok : (refreshPOST verifyR genA genR id1 now1 db tok).1 = .success 200 a) :
    (refreshPOST verifyR genA genR id2 now2
        (refreshPOST verifyR genA genR id1 now1 db tok).2 tok).1
      = .failure 401 ⟨"Unauthorized", "Invalid or expired refresh token", 401, []⟩ := by
  by_cases h0 : tok = ""
  · rw [refreshPOST, if_pos h0] at hok
    exact absurd hok (by simp)
  · rw [refreshPOST, if_neg h0] at hok
    match hv : verifyR tok with
    | none => rw [hv] at hok; exact absurd hok (by simp)
    | some p0 =>
      rw [hv] at hok
      simp only at hok
      match hfind : db.findRefreshToken tok with
      | none => rw [hfind] at hok; exact absurd hok (by simp)
      | some st =>
        rw [hfind] at hok
        simp only at hok
        by_cases hexp : st.expiresAt < now1
        · rw [if_pos hexp] at hok
          exact absurd hok (by simp)
        · rw [if_neg hexp] at hok
          match huser : db.findUserById st.userId with
          | none => rw [huser] at hok; exact absurd hok (by simp)
          | some u =>
            rw [huser] at hok
            simp only at hok
            -- the state after the successful first call
            have hst_mem : st ∈ db.refreshTokens :=
              List.mem_of_find?_eq_some hfind
            have hst_tok : st.token = tok := by
              have := List.find?_some hfind
              simpa using this
            have hdb2 : (refreshPOST verifyR genA genR id1 now1 db tok).2
                = { db with refreshTokens :=
                      (db.refreshTokens.filter fun r => !(r.id = st.id))
                        ++ [{ id := id1
                              token := genR { userId := u.id, email := u.email
                                              role := jsToLower u.role }
                              userId := u.id
                              expiresAt := now1 + 7 * 24 * 60 * 60 * 1000 }] } := by
              rw [refreshPOST, if_neg h0, hv, hfind]
              simp only
              rw [if_neg hexp, huser]
            rw [hdb2]
            -- the second lookup finds nothing
            have hnone : DB.findRefreshToken
                { db with refreshTokens :=
                    (db.refreshTokens.filter fun r => !(r.id = st.id))
                      ++ [{ id := id1
                            token := genR { userId := u.id, email := u.email
                                            role := jsToLower u.role }
                            userId := u.id
                            expiresAt := now1 + 7 * 24 * 60 * 60 * 1000 }] } tok
                = none := by
              rw [DB.findRefreshToken]
              rw [List.find?_eq_none]
              intro r hr
              rcases List.mem_append.mp hr with hr | hr
              · rcases List.mem_filter.mp hr with ⟨hrmem, hrid⟩
                simp only [decide_eq_true_eq]
                intro hrtok
                have : r = st := by
                  apply List.inj_on_of_nodup_map huniq hrmem hst_mem
                  rw [hrtok, hst_tok]
                rw [this] at hrid
                simp at hrid
              · simp only [List.mem_singleton] at hr
                rw [hr]
                simp only [decide_eq_true_eq]
                exact hfresh _
            rw [refreshPOST, if_neg h0, hv, hnone]

/-- Witness for C2: a concrete database with one stored token, rotated once
and presented again. -/
theorem refresh_rotation_single_use_witness :
    (refreshPOST (fun s => if s = "tok" then some ⟨"u1", "a@b.c", "viewer"⟩ else none)
        (fun _ => "acc2") (fun _ => "tok2") 2 5
        (refreshPOST (fun s => if s = "tok" then some ⟨"u1", "a@b.c", "viewer"⟩ else none)
            (fun _ => "acc2") (fun _ => "tok2") 2 5
            ⟨[⟨"u1", "a@b.c", "h", "Alice", "VIEWER"⟩], [⟨1, "tok", "u1", 100⟩]⟩ "tok").2
        "tok").1
      = .failure 401 ⟨"Unauthorized", "Invalid or expired refresh token", 401, []⟩ :=
  refresh_rotation_single_use
    (fun s => if s = "tok" then some ⟨"u1", "a@b.c", "viewer"⟩ else none)
    (fun _ => "acc2") (fun _ => "tok2") 2 2 5 5
    ⟨[⟨"u1", "a@b.c", "h", "Alice", "VIEWER"⟩], [⟨1, "tok", "u1", 100⟩]⟩ "tok"
    ⟨⟨"u1", "a@b.c", "viewer", ["content:read", "comments:create"]⟩, "acc2", "tok2"⟩
    (by simp [DB.tokensUnique]) (by intro p; simp) (by decide)

/-- C3: the register handler takes any role string from the body (defaulting
to `viewer` only when the field is absent), performs no check against the
closed role set, and persists it uppercased; with role `admin` a validated
registration succeeds with 201, permissions `["*"]`, and both issued tokens
minted over a payload whose role is `admin`. -/
theorem register_accepts_arbitrary_role
    (hash : String → String) (genA genR : TokenPayload → String)
    (newUserId : String) (newTokenId : Nat) (now : Int) (db : DB)
    (email password name role : String)
    (hvalid : (validateRegistration email password name).valid = true)
    (hfree : db.findUserByEmail email = none) :
    (registerPOST hash genA genR newUserId newTokenId now db
        email password name (some role)).1
        = .success 201
            { user := { id := newUserId, email := email
                        role := jsToLower (jsToUpper role)
                        permissions := getPermissions (jsToLower (jsToUpper role)) }
              accessToken := genA { userId := newUserId, email := email
                                    role := jsToLower (jsToUpper role) }
              refreshToken := genR { userId := newUserId, email := email
                                     role := jsToLower (jsToUpper role) } }
      ∧ (registerPOST hash genA genR newUserId newTokenId now db
          email password name (some role)).2.users
          = db.users ++ [{ id := newUserId, email := email, password := hash password
                           name := name, role := jsToUpper role }]
      ∧ registerPOST hash genA genR newUserId newTokenId now db
          email password name none
          = registerPOST hash genA genR newUserId newTokenId now db
              email password name (some "viewer")
      ∧ jsToLower (jsToUpper "admin") = "admin"
      ∧ getPermissions (jsToLower (jsToUpper "admin")) = ["*"] := by
  refine ⟨?_, ?_, rfl, by decide, by decide⟩
  · rw [registerPOST]
    simp only [Option.getD]
    rw [if_neg (by rw [hvalid]; simp), hfree]
  · rw [registerPOST]
    simp only [Option.getD]
    rw [if_neg (by rw [hvalid]; simp), hfree]

/-- Witness for C3: registering `alice@example.com` with role `admin`
succeeds and returns the wildcard permission set. -/
theorem register_accepts_arbitrary_role_witness :
    (registerPOST (fun _ => "h") (fun _ => "acc") (fun _ => "ref")
        "u1" 1 0 ⟨[], []⟩ "alice@example.com" "Passw0rd" "Alice" (some "admin")).1
      = .success 201
          { user := { id := "u1", email := "alice@example.com", role := "admin"
                      permissions := ["*"] }
            accessToken := "acc", refreshToken := "ref" } :=
  (register_accepts_arbitrary_role (fun _ => "h") (fun _ => "acc") (fun _ => "ref")
      "u1" 1 0 ⟨[], []⟩ "alice@example.com" "Passw0rd" "Alice" "admin"
      (by decide) (by decide)).1

/-- C4: the login handler's response to an unknown email and its response to a
known email with a failing password are the same value — label `Unauthorized`,
message `Invalid credentials`, status 401 — so the two failure causes cannot
be told apart from the response. -/
theorem login_failures_indistinguishable
    (vp : String → String → Bool) (genA genR : TokenPayload → String)
    (tid1 tid2 : Nat) (now1 now2 : Int) (db1 db2 : DB)
    (email1 password1 email2 password2 : String) (u : DbUser)
    (he1 : email1 ≠ "") (hp1 : password1 ≠ "")
    (he2 : email2 ≠ "") (hp2 : password2 ≠ "")
    (hmiss : db1.findUserByEmail email1 = none)
    (hhit : db2.findUserByEmail email2 = some u)
    (hbad : vp password2 u.password = false) :
    (loginPOST vp genA genR tid1 now1 db1 email1 password1).1
        = .failure 401 ⟨"Unauthorized", "Invalid credentials", 401, []⟩
      ∧ (loginPOST vp genA genR tid2 now2 db2 email2 password2).1
        = .failure 401 ⟨"Unauthorized", "Invalid credentials", 401, []⟩
      ∧ (loginPOST vp genA genR tid1 now1 db1 email1 password1).1
        = (loginPOST vp genA genR tid2 now2 db2 email2 password2).1 := by
  have h1 : (loginPOST vp genA genR tid1 now1 db1 email1 password1).1
      = .failure 401 ⟨"Unauthorized", "Invalid credentials", 401, []⟩ := by
    rw [loginPOST, if_neg (by simp [he1, hp1]), hmiss]
  have h2 : (loginPOST vp genA genR tid2 now2 db2 email2 password2).1
      = .failure 401 ⟨"Unauthorized", "Invalid credentials", 401, []⟩ := by
    rw [loginPOST, if_neg (by simp [he2, hp2]), hhit]
    simp only
    rw [if_pos hbad]
  exact ⟨h1, h2, h1.trans h2.symm⟩

/-- Witness for C4: a concrete unknown-email login and a concrete
wrong-password login produce the identical 401 response. -/
theorem login_failures_indistinguishable_witness :
    (loginPOST (fun p h => p = h) (fun _ => "a") (fun _ => "r") 1 0
        ⟨[], []⟩ "ghost@example.com" "Whatever1").1
      = (loginPOST (fun p h => p = h) (fun _ => "a") (fun _ => "r") 1 0
          ⟨[⟨"u1", "alice@example.com", "Secret99", "Alice", "VIEWER"⟩], []⟩
          "alice@example.com" "WrongPass1").1 :=
  (login_failures_indistinguishable (fun p h => p = h) (fun _ => "a") (fun _ => "r")
      1 1 0 0 ⟨[], []⟩ ⟨[⟨"u1", "alice@example.com", "Secret99", "Alice", "VIEWER"⟩], []⟩
      "ghost@example.com" "Whatever1" "alice@example.com" "WrongPass1"
      ⟨"u1", "alice@example.com", "Secret99", "Alice", "VIEWER"⟩
      (by decide) (by decide) (by decide) (by decide)
      (by decide) (by decide) (by decide)).2.2

/-- C8: `hasPermission` for role `editor` grants `content:create` through the
`content:*` entry, denies `comments:moderateAll`, and — because `resource:*`
is compared by plain string prefix — grants every permission string that
merely starts with the bare prefix `content`, such as `contentx:read`. -/
theorem hasPermission_editor_wildcard_is_plain_prefix :
    hasPermission "editor" "content:create" = true
      ∧ hasPermission "editor" "comments:moderateAll" = false
      ∧ ∀ s : String, jsStartsWith s "content" = true →
          hasPermission "editor" s = true := by
  refine ⟨by decide, by decide, ?_⟩
  intro s hs
  have hred : hasPermission "editor" s
      = (jsStartsWith s "content"
          || (jsStartsWith s "media"
            || (decide ("comments:moderate" = s) || false))) := rfl
  rw [hred, hs]
  rfl

/-- Witness for C8: the prefix-match clause fires on the unrelated resource
`contentx:read`. -/
theorem hasPermission_editor_wildcard_is_plain_prefix_witness :
    hasPermission "editor" "contentx:read" = true :=
  hasPermission_editor_wildcard_is_plain_prefix.2.2 "contentx:read" (by decide)

/-- C5 (code behaviour at the failing input): two sequential `checkLimit`
calls for one key, at `now = 0` and `now = 1000` milliseconds.  The first
request stores the window entry with expiry 3600000, but the second request —
which per the claim should only increment the counter — rewrites the stored
expiry to 1000 + 3600000, because `SimpleCache.incr` stores the bumped
counter through `set` with no expiry argument and `set` always stamps a fresh
default expiry.  The `if (current === 1) expire` line in `checkLimit` shows
the intended fixed window; `incr` defeats it, so the window end moves with
every request and a steadily active identifier is never given a fresh
window. -/
theorem checkLimit_second_request_moves_window_expiry :
    cacheFind (RateLimiter.checkLimit 0 [] "ip1" .anonymous).2
        "rate_limit:anonymous:ip1" = some ⟨"1", 3600000⟩
      ∧ cacheFind (RateLimiter.checkLimit 1000
            (RateLimiter.checkLimit 0 [] "ip1" .anonymous).2 "ip1" .anonymous).2
          "rate_limit:anonymous:ip1" = some ⟨"2", 3601000⟩
      ∧ (3601000 : Int) ≠ 3600000 := by
  refine ⟨rfl, rfl, by decide⟩

theorem validateEmail_errors_nil_iff (e : String) :
    (validateEmail e).errors = [] ↔ emailRegexTest e = true := by
  by_cases he : e = ""
  · subst he
    decide
  · simp only [validateEmail, if_neg he]
    by_cases hr : emailRegexTest e = false
    · simp [if_pos hr, hr]
    · simp [if_neg hr]
      simp at hr
      exact hr

theorem validatePassword_errors_nil_iff (p : String) :
    (validatePassword p).errors = []
      ↔ (8 ≤ p.length ∧ p.data.any isUpperAZ = true
          ∧ p.data.any isLowerAZ = true ∧ p.data.any isDigit09 = true) := by
  by_cases hp : p = ""
  · subst hp
    decide
  · simp only [validatePassword, if_neg hp, List.append_eq_nil, ite_eq_right_iff,
      List.cons_ne_nil, imp_false]
    simp [Nat.not_lt, and_assoc]

theorem validateRegistration_valid_iff (e p n : String) :
    (validateRegistration e p n).valid = true
      ↔ (emailRegexTest e = true ∧ 8 ≤ p.length ∧ p.data.any isUpperAZ = true
          ∧ p.data.any isLowerAZ = true ∧ p.data.any isDigit09 = true
          ∧ 2 ≤ (jsTrim n).length) := by
  simp only [validateRegistration, List.isEmpty_eq_true, List.append_eq_nil]
  rw [validateEmail_errors_nil_iff, validatePassword_errors_nil_iff]
  by_cases hn0 : n = ""
  · subst hn0
    have h0 : jsTrim "" = "" := rfl
    simp [h0]
  · by_cases hlen : (jsTrim n).length < 2
    · have h2 : ¬ 2 ≤ (jsTrim n).length := by omega
      simp [hn0, hlen, h2]
    · have h2 : 2 ≤ (jsTrim n).length := by omega
      simp [hn0, hlen, h2, and_assoc]

/-- The itemized validity condition of the register claim: email matches the
format regex, the password satisfies all four strength rules, and the trimmed
name has at least 2 characters. -/
abbrev regRequestValid (email password name : String) : Prop :=
  emailRegexTest email = true ∧ 8 ≤ password.length
    ∧ password.data.any isUpperAZ = true ∧ password.data.any isLowerAZ = true
    ∧ password.data.any isDigit09 = true ∧ 2 ≤ (jsTrim name).length

/-- C9: the register handler answers the 400 `Validation Error` response
exactly when the email fails the format regex, the password violates one of
the four strength rules, or the trimmed name is shorter than 2 characters;
and whenever validation fails the database is returned untouched — no
identity row and no refresh-token row is created, validation having run
before any storage access. -/
theorem register_validates_before_storage
    (hash : String → String) (genA genR : TokenPayload → String)
    (uid : String) (tid : Nat) (now : Int) (db : DB)
    (email password name : String) (roleOpt : Option String) :
    ((registerPOST hash genA genR uid tid now db email password name roleOpt).1
        = .failure 400 ⟨"Validation Error", "Invalid input data", 400,
            (validateRegistration email password name).errors⟩
      ↔ ¬ regRequestValid email password name)
      ∧ (¬ regRequestValid email password name →
          (registerPOST hash genA genR uid tid now db email password name roleOpt).2
            = db) := by
  by_cases hv : (validateRegistration email password name).valid = true
  · have hcond := (validateRegistration_valid_iff email password name).mp hv
    have hnotfail :
        (registerPOST hash genA genR uid tid now db email password name roleOpt).1
          ≠ .failure 400 ⟨"Validation Error", "Invalid input data", 400,
              (validateRegistration email password name).errors⟩ := by
      rw [registerPOST]
      simp only
      rw [if_neg (by rw [hv]; simp)]
      match hfind : db.findUserByEmail email with
      | some u => simp
      | none => simp
    exact ⟨⟨fun hfail => absurd hfail hnotfail, fun hinv => absurd hcond hinv⟩,
      fun hinv => absurd hcond hinv⟩
  · have hfalse : (validateRegistration email password name).valid = false :=
      Bool.eq_false_iff.mpr hv
    have hcond : ¬ regRequestValid email password name := fun hc =>
      hv ((validateRegistration_valid_iff email password name).mpr hc)
    constructor
    · constructor
      · intro _; exact hcond
      · intro _
        rw [registerPOST]
        simp only
        rw [if_pos hfalse]
    · intro _
      rw [registerPOST]
      simp only
      rw [if_pos hfalse]

/-- Witness for C9: an invalid registration (bad email, weak password, short
name) leaves the empty database unchanged. -/
theorem register_validates_before_storage_witness :
    (registerPOST (fun _ => "h") (fun _ => "a") (fun _ => "r") "u" 1 0
        ⟨[], []⟩ "bad" "weak" "A" none).2 = (⟨[], []⟩ : DB) :=
  (register_validates_before_storage (fun _ => "h") (fun _ => "a") (fun _ => "r")
      "u" 1 0 ⟨[], []⟩ "bad" "weak" "A" none).2 (by decide)

theorem cacheFind_write_self (c : Cache) (key : String) (e : CacheEntry) :
    cacheFind (cacheWrite c key e) key = some e := by
  simp [cacheFind, cacheWrite]

/-- First request for an absent key: count 1, window expiry `now + 3600s`. -/
theorem checkLimit_fresh_key (now : Int) (c : Cache) (identifier : String)
    (ty : BucketType)
    (h0 : cacheFind c ("rate_limit:" ++ ty.name ++ ":" ++ identifier) = none) :
    (RateLimiter.checkLimit now c identifier ty).1
        = { allowed := decide ((1 : Int) ≤ RateLimiter.limits ty)
            remaining := max 0 (RateLimiter.limits ty - 1)
            resetAt := now + 3600 * 1000 }
      ∧ cacheFind (RateLimiter.checkLimit now c identifier ty).2
          ("rate_limit:" ++ ty.name ++ ":" ++ identifier)
        = some ⟨intToStringJS 1, now + 3600 * 1000⟩ := by
  have hp0 : parseIntJS "0" = 0 := by decide
  simp only [RateLimiter.checkLimit, SimpleCache.incr, SimpleCache.get, h0,
    Option.getD, hp0, SimpleCache.set, SimpleCache.expire]
  norm_num
  rw [cacheFind_write_self]
  simp only
  rw [cacheFind_write_self]

/-- Later request while the entry is alive: the count is bumped from `j` to
`j + 1` (no `expire` call, since the returned count is not 1), and the stored
expiry is nevertheless rewritten to `now + 3600s` by `incr`. -/
theorem checkLimit_live_key (now e : Int) (c : Cache) (identifier : String)
    (ty : BucketType) (j : Nat) (hj : 1 ≤ j)
    (hentry : cacheFind c ("rate_limit:" ++ ty.name ++ ":" ++ identifier)
        = some ⟨intToStringJS (j : Int), e⟩)
    (hlive : ¬ now > e) :
    (RateLimiter.checkLimit now c identifier ty).1
        = { allowed := decide (((j : Int) + 1) ≤ RateLimiter.limits ty)
            remaining := max 0 (RateLimiter.limits ty - ((j : Int) + 1))
            resetAt := now + 3600 * 1000 }
      ∧ cacheFind (RateLimiter.checkLimit now c identifier ty).2
          ("rate_limit:" ++ ty.name ++ ":" ++ identifier)
        = some ⟨intToStringJS ((j : Int) + 1), now + 3600 * 1000⟩ := by
  have hpj : parseIntJS (intToStringJS (j : Int)) = (j : Int) :=
    parseIntJS_intToStringJS _ (by positivity)
  have hne1 : ¬ ((j : Int) + 1 = 1) := by
    intro h
    omega
  simp only [RateLimiter.checkLimit, SimpleCache.incr, SimpleCache.get, hentry,
    if_neg hlive, Option.getD, hpj, SimpleCache.set, if_neg hne1]
  rw [cacheFind_write_self]
  exact ⟨trivial, rfl⟩

/-- Peeling `iterCheckLimit` from the end. -/
theorem iterCheckLimit_succ_end (now : Int) (identifier : String)
    (ty : BucketType) (j : Nat) (c : Cache) :
    iterCheckLimit now identifier ty (j + 1) c
      = (RateLimiter.checkLimit now
          (iterCheckLimit now identifier ty j c) identifier ty).2 := by
  induction j generalizing c with
  | zero => rfl
  | succ j ih =>
    have h1 : iterCheckLimit now identifier ty (j + 2) c
        = iterCheckLimit now identifier ty (j + 1)
            (RateLimiter.checkLimit now c identifier ty).2 := rfl
    rw [h1, ih]
    rfl

/-- After `j ≥ 1` same-instant requests from a cache without the key, the
entry holds count `j` with expiry `now + 3600s`. -/
theorem iterCheckLimit_entry (now : Int) (identifier : String) (ty : BucketType)
    (c0 : Cache)
    (h0 : cacheFind c0 ("rate_limit:" ++ ty.name ++ ":" ++ identifier) = none) :
    ∀ j : Nat, 1 ≤ j →
      cacheFind (iterCheckLimit now identifier ty j c0)
          ("rate_limit:" ++ ty.name ++ ":" ++ identifier)
        = some ⟨intToStringJS (j : Int), now + 3600 * 1000⟩ := by
  intro j
  induction j with
  | zero => omega
  | succ j ih =>
    intro _
    match j, ih with
    | 0, _ =>
      have h1 : iterCheckLimit now identifier ty 1 c0
          = (RateLimiter.checkLimit now c0 identifier ty).2 := rfl
      rw [h1]
      exact (checkLimit_fresh_key now c0 identifier ty h0).2
    | j + 1, ih =>
      rw [iterCheckLimit_succ_end]
      have hent := ih (by omega)
      have hstep := (checkLimit_live_key now (now + 3600 * 1000)
          (iterCheckLimit now identifier ty (j + 1) c0) identifier ty (j + 1)
          (by omega) hent (by omega)).2
      have hcast : ((j + 1 : Nat) : Int) + 1 = ((j + 2 : Nat) : Int) := by
        push_cast
        ring
      rw [hstep, hcast]

/-- C6: within one window (sequential same-instant requests against a cache
that does not yet hold the key), the `k`-th `checkLimit` call returns
`allowed = (k ≤ ceiling)` — so requests 1..ceiling pass and request
ceiling+1 is the first rejected one — and `remaining = max 0 (ceiling - k)`
with `resetAt = now + 3600s`; the anonymous ceiling is 100. -/
theorem checkLimit_ceiling_boundary (now : Int) (identifier : String)
    (ty : BucketType) (c0 : Cache) (k : Nat) (hk : 1 ≤ k)
    (h0 : cacheFind c0 ("rate_limit:" ++ ty.name ++ ":" ++ identifier) = none) :
    (RateLimiter.checkLimit now (iterCheckLimit now identifier ty (k - 1) c0)
        identifier ty).1
        = { allowed := decide ((k : Int) ≤ RateLimiter.limits ty)
            remaining := max 0 (RateLimiter.limits ty - (k : Int))
            resetAt := now + 3600 * 1000 }
      ∧ RateLimiter.limits .anonymous = 100 := by
  refine ⟨?_, rfl⟩
  match k, hk with
  | 1, _ =>
    have h1 : iterCheckLimit now identifier ty (1 - 1) c0 = c0 := rfl
    rw [h1]
    have hfresh := (checkLimit_fresh_key now c0 identifier ty h0).1
    rw [hfresh]
    norm_num
  | k + 2, _ =>
    have hent := iterCheckLimit_entry now identifier ty c0 h0 (k + 1) (by omega)
    have h2 : (k + 2 - 1 : Nat) = k + 1 := by omega
    rw [h2]
    have hstep := (checkLimit_live_key now (now + 3600 * 1000)
        (iterCheckLimit now identifier ty (k + 1) c0) identifier ty (k + 1)
        (by omega) hent (by omega)).1
    rw [hstep]
    have hcast : ((k + 1 : Nat) : Int) + 1 = ((k + 2 : Nat) : Int) := by
      push_cast
      ring
    rw [hcast]

/-- Witness for C6: after 100 admitted anonymous requests, request 101 is
rejected. -/
theorem checkLimit_ceiling_boundary_witness :
    ((RateLimiter.checkLimit 0 (iterCheckLimit 0 "ip" BucketType.anonymous 100 [])
        "ip" BucketType.anonymous).1).allowed = false := by
  have h := (checkLimit_ceiling_boundary 0 "ip" BucketType.anonymous [] 101
      (by decide) rfl).1
  rw [show (101 - 1 : Nat) = 100 from rfl] at h
  rw [h]
  decide

/-- C7 counterexample: a request to each of the three auth endpoints is waved
through by the middleware (`NextResponse.next()`) without
`rateLimiter.checkLimit` ever being invoked — the public-route skip list runs
before the rate-limiting block. -/
theorem middleware_auth_endpoints_bypass_rate_limiter :
    middleware (fun _ => none) 0 [] "/api/auth/login" none none
        = { decision := .next, rateLimiterCalled := false, cache := [] }
      ∧ middleware (fun _ => none) 0 [] "/api/auth/register" none none
        = { decision := .next, rateLimiterCalled := false, cache := [] }
      ∧ middleware (fun _ => none) 0 [] "/api/auth/refresh" none none
        = { decision := .next, rateLimiterCalled := false, cache := [] } :=
  ⟨rfl, rfl, rfl⟩

/-- C7 (amended): a request whose path is outside the public skip list always
passes through the rate limiter first — `checkLimit` is invoked, and when it
denies, the middleware answers 429 built from the limiter's result without
consulting the token verifier (the outcome is identical for every verifier).
Requests to the skip list — which includes `/api/auth/login`,
`/api/auth/register` and `/api/auth/refresh` — bypass the middleware whole,
rate limiter included. -/
theorem middleware_rate_limit_gate
    (verifyA : String → Option TokenPayload) (now : Int) (c : Cache)
    (path : String) (authHeader ip : Option String) :
    (isPublicPath path = false →
        (middleware verifyA now c path authHeader ip).rateLimiterCalled = true
        ∧ (((RateLimiter.checkLimit now c
              (if isTruthyStr ip then ip.getD "anonymous" else "anonymous")
              (if isTruthyStr authHeader then BucketType.authenticated
                else BucketType.anonymous)).1).allowed = false →
            (middleware verifyA now c path authHeader ip).decision
              = .tooManyRequests
                  ((RateLimiter.checkLimit now c
                    (if isTruthyStr ip then ip.getD "anonymous" else "anonymous")
                    (if isTruthyStr authHeader then BucketType.authenticated
                      else BucketType.anonymous)).1).remaining
                  ((RateLimiter.checkLimit now c
                    (if isTruthyStr ip then ip.getD "anonymous" else "anonymous")
                    (if isTruthyStr authHeader then BucketType.authenticated
                      else BucketType.anonymous)).1).resetAt
            ∧ ∀ verifyB : String → Option TokenPayload,
                middleware verifyB now c path authHeader ip
                  = middleware verifyA now c path authHeader ip))
      ∧ (isPublicPath path = true →
          middleware verifyA now c path authHeader ip
            = { decision := .next, rateLimiterCalled := false, cache := c }) := by
  constructor
  · intro hpub
    refine ⟨?_, fun hdeny => ⟨?_, fun verifyB => ?_⟩⟩
    · simp only [middleware, hpub, Bool.false_eq_true, if_false]
      repeat' split
      all_goals rfl
    · simp only [middleware, hpub, Bool.false_eq_true, if_false]
      rw [if_pos hdeny]
    · simp only [middleware, hpub, Bool.false_eq_true, if_false]
      rw [if_pos hdeny, if_pos hdeny]
  · intro hpub
    simp only [middleware, hpub, if_true]

/-- Witness for C7 (amended): a dashboard request with an empty cache invokes
the rate limiter. -/
theorem middleware_rate_limit_gate_witness :
    (middleware (fun _ => none) 0 [] "/dashboard" none none).rateLimiterCalled
      = true :=
  ((middleware_rate_limit_gate (fun _ => none) 0 [] "/dashboard" none none).1
    (by decide)).1

theorem jsStartsWith_bearer_ne_empty (h : String)
    (hb : jsStartsWith h "Bearer " = true) : ¬ h = "" := by
  intro h0
  subst h0
  simp [jsStartsWith, List.isPrefixOf] at hb

/-- C10: on a protected route (an `/api` path outside the skip list) with the
rate limiter admitting the request: a missing Authorization header, a header
not starting with `Bearer `, or a bearer token failing access verification
each make the middleware answer a 401 response and the request never reaches
the downstream handler; a verified token makes the middleware forward the
request with `x-user-id`, `x-user-email` and `x-user-role` taken from the
verified payload. -/
theorem middleware_protected_route_auth
    (verifyA : String → Option TokenPayload) (now : Int) (c : Cache)
    (path : String) (authHeader ip : Option String)
    (hpub : isPublicPath path = false)
    (hapi : jsStartsWith path "/api" = true)
    (hallow : ((RateLimiter.checkLimit now c
        (if isTruthyStr ip then ip.getD "anonymous" else "anonymous")
        (if isTruthyStr authHeader then BucketType.authenticated
          else BucketType.anonymous)).1).allowed = true) :
    (authHeader = none →
        (middleware verifyA now c path authHeader ip).decision
          = .unauthorizedNoToken)
      ∧ (∀ h, authHeader = some h → jsStartsWith h "Bearer " = false →
          (middleware verifyA now c path authHeader ip).decision
            = .unauthorizedNoToken)
      ∧ (∀ h, authHeader = some h → jsStartsWith h "Bearer " = true →
          verifyA (jsDrop h 7) = none →
          (middleware verifyA now c path authHeader ip).decision
            = .unauthorizedBadToken)
      ∧ (∀ h p, authHeader = some h → jsStartsWith h "Bearer " = true →
          verifyA (jsDrop h 7) = some p →
          (middleware verifyA now c path authHeader ip).decision
            = .nextWithHeaders p.userId p.email p.role)
      ∧ MwDecision.status .unauthorizedNoToken = some 401
      ∧ MwDecision.status .unauthorizedBadToken = some 401 := by
  have hnotdeny : ¬ ((RateLimiter.checkLimit now c
      (if isTruthyStr ip then ip.getD "anonymous" else "anonymous")
      (if isTruthyStr authHeader then BucketType.authenticated
        else BucketType.anonymous)).1).allowed = false := by
    rw [hallow]
    simp
  refine ⟨?_, ?_, ?_, ?_, rfl, rfl⟩
  · intro hnone
    subst hnone
    simp only [middleware, hpub, Bool.false_eq_true, if_false]
    rw [if_neg hnotdeny, if_pos hapi]
    rfl
  · intro h hsome hb
    subst hsome
    have hext : extractToken (some h) = none := by
      simp [extractToken, hb]
    simp only [middleware, hpub, Bool.false_eq_true, if_false]
    rw [if_neg hnotdeny, if_pos hapi, hext]
  · intro h hsome hb hv
    subst hsome
    have hext : extractToken (some h) = some (jsDrop h 7) := by
      simp [extractToken, hb, jsStartsWith_bearer_ne_empty h hb]
    simp only [middleware, hpub, Bool.false_eq_true, if_false]
    rw [if_neg hnotdeny, if_pos hapi, hext]
    simp only
    rw [hv]
  · intro h p hsome hb hv
    subst hsome
    have hext : extractToken (some h) = some (jsDrop h 7) := by
      simp [extractToken, hb, jsStartsWith_bearer_ne_empty h hb]
    simp only [middleware, hpub, Bool.false_eq_true, if_false]
    rw [if_neg hnotdeny, if_pos hapi, hext]
    simp only
    rw [hv]

/-- Witness for C10: a valid bearer token on `/api/content` is forwarded with
the identity headers. -/
theorem middleware_protected_route_auth_witness :
    (middleware (fun s => if s = "abc" then some ⟨"u1", "a@b.c", "viewer"⟩ else none)
        0 [] "/api/content" (some "Bearer abc") none).decision
      = .nextWithHeaders "u1" "a@b.c" "viewer" :=
  (middleware_protected_route_auth
      (fun s => if s = "abc" then some ⟨"u1", "a@b.c", "viewer"⟩ else none)
      0 [] "/api/content" (some "Bearer abc") none
      (by decide) (by decide) (by decide)).2.2.2.1 "Bearer abc"
      ⟨"u1", "a@b.c", "viewer"⟩ rfl (by decide) (by decide)
